import Mathlib

/-!
Shallow embedding of the pySIP core covered by the specification:
the `TwTi_RoRiAwAicv` RC state-space model (matrices and analytic
jacobians) and the `FreqRegressor` entry points (`fit`, `predict`,
`eval_residuals`), together with a spec-level model of the square-root
filter's failure behaviour.  Matrices are functions on `Fin` index types
with entries in a field `K` (instantiated with `ℝ` in the theorems); the
parameter dictionaries are `String`-keyed optional maps mirroring the
Python dictionaries.
-/

namespace PySIP

variable (K : Type) [Field K]

/-- Scale factors stored on the model (`self.sX`, `self.sC`). -/
structure Scales where
  sX : K
  sC : K

/-- The constrained parameter values, in declared order
(`Ro, Ri, Cw, Ci, Aw, Ai, cv, sigw_w, sigw_i, sigv, x0_w, x0_i, sigx0_w, sigx0_i`). -/
structure Theta where
  Ro : K
  Ri : K
  Cw : K
  Ci : K
  Aw : K
  Ai : K
  cv : K
  sigw_w : K
  sigw_i : K
  sigv : K
  x0_w : K
  x0_i : K
  sigx0_w : K
  sigx0_i : K

variable {K}

/-- Positional unpacking `(Ro, Ri, ..., sigx0_i, *_) = self.parameters.theta`:
element `i` of the vector is read as the `i`-th declared parameter. -/
def Theta.ofList (l : List K) : Theta K where
  Ro := l.getD 0 0
  Ri := l.getD 1 0
  Cw := l.getD 2 0
  Ci := l.getD 3 0
  Aw := l.getD 4 0
  Ai := l.getD 5 0
  cv := l.getD 6 0
  sigw_w := l.getD 7 0
  sigw_i := l.getD 8 0
  sigv := l.getD 9 0
  x0_w := l.getD 10 0
  x0_i := l.getD 11 0
  sigx0_w := l.getD 12 0
  sigx0_i := l.getD 13 0

variable (K)

/-- The continuous state-space matrices of the model
(`n = 2` states, `m = 4` inputs, `p = 1` output). -/
structure SS where
  A : Fin 2 → Fin 2 → K
  B : Fin 2 → Fin 4 → K
  C : Fin 1 → Fin 2 → K
  D : Fin 1 → Fin 4 → K
  Q : Fin 2 → Fin 2 → K
  R : Fin 1 → Fin 1 → K
  x0 : Fin 2 → Fin 1 → K
  P0 : Fin 2 → Fin 2 → K

variable {K}

/-- Single-entry in-place write `M[i, j] = v`. -/
def wr {m n : ℕ} (M : Fin m → Fin n → K) (i : Fin m) (j : Fin n) (v : K) :
    Fin m → Fin n → K :=
  fun a b => if a = i ∧ b = j then v else M a b

/-- The declared parameter schema of `TwTi_RoRiAwAicv`
(category, symbol, description). -/
def params : List (String × String × String) :=
  [("THERMAL_RESISTANCE", "Ro", "between the outdoor and the wall node"),
   ("THERMAL_RESISTANCE", "Ri", "between the wall node and the indoor"),
   ("THERMAL_CAPACITY", "Cw", "Wall"),
   ("THERMAL_CAPACITY", "Ci", "indoor air, indoor walls, furnitures, etc. "),
   ("SOLAR_APERTURE", "Aw", "of the wall (m2)"),
   ("SOLAR_APERTURE", "Ai", "of the windows (m2)"),
   ("COEFFICIENT", "cv", "scaling of the heating contribution of the ventilation"),
   ("STATE_DEVIATION", "sigw_w", ""),
   ("STATE_DEVIATION", "sigw_i", ""),
   ("MEASURE_DEVIATION", "sigv", ""),
   ("INITIAL_MEAN", "x0_w", ""),
   ("INITIAL_MEAN", "x0_i", ""),
   ("INITIAL_DEVIATION", "sigx0_w", ""),
   ("INITIAL_DEVIATION", "sigx0_i", "")]

/-- The declared parameter names, in order. -/
def paramNames : List String := params.map (fun q => q.2.1)

/-- Body of `set_constant`: the one-time write `self.C[0, 1] = 1.0`. -/
def set_constant (s : SS K) : SS K :=
  { s with C := wr s.C 0 1 1 }

/-- Body of `update_state_space_model` after the positional unpack of
`theta`: every matrix write of the Python method, in order.  Entries not
written keep their previous value from `s`. -/
def applySS (sc : Scales K) (θ : Theta K) (s : SS K) : SS K where
  A := fun i j =>
    if i = 0 then
      (if j = 0 then (-(θ.Ro + θ.Ri)) / (θ.Cw * θ.Ri * θ.Ro * sc.sC)
       else 1 / (θ.Cw * θ.Ri * sc.sC))
    else
      (if j = 0 then 1 / (θ.Ci * θ.Ri * sc.sC)
       else (-1) / (θ.Ci * θ.Ri * sc.sC))
  B := fun i j =>
    if i = 0 then
      (if j = 0 then 1 / (θ.Cw * θ.Ro * sc.sC)
       else if j = 1 then θ.Aw / (θ.Cw * sc.sC)
       else s.B i j)
    else
      (if j = 1 then θ.Ai / (θ.Ci * sc.sC)
       else if j = 2 then 1 / (θ.Ci * sc.sC)
       else if j = 3 then θ.cv / (θ.Ci * sc.sC)
       else s.B i j)
  C := s.C
  D := s.D
  Q := wr (wr s.Q 0 0 θ.sigw_w) 1 1 θ.sigw_i
  R := wr s.R 0 0 θ.sigv
  x0 := wr (wr s.x0 0 0 (θ.x0_w * sc.sX)) 1 0 (θ.x0_i * sc.sX)
  P0 := wr (wr s.P0 0 0 θ.sigx0_w) 1 1 θ.sigx0_i

/-- `update_state_space_model`: unpacks the first 14 entries of `theta`
positionally (failing when fewer are supplied, as the Python tuple
unpacking does) and performs the matrix writes. -/
def update_state_space_model (sc : Scales K) (theta : List K) (s : SS K) :
    Option (SS K) :=
  if 14 ≤ theta.length then some (applySS sc (Theta.ofList theta) s) else none

variable (K)

/-- The derivative dictionaries `dA, dB, dC, dD, dQ, dR, dx0, dP0`,
keyed by parameter name; `none` models an absent key. -/
structure Jac where
  dA : String → Option (Fin 2 → Fin 2 → K)
  dB : String → Option (Fin 2 → Fin 4 → K)
  dC : String → Option (Fin 1 → Fin 2 → K)
  dD : String → Option (Fin 1 → Fin 4 → K)
  dQ : String → Option (Fin 2 → Fin 2 → K)
  dR : String → Option (Fin 1 → Fin 1 → K)
  dx0 : String → Option (Fin 2 → Fin 1 → K)
  dP0 : String → Option (Fin 2 → Fin 2 → K)

variable {K}

/-- In-place mutation of the matrix stored under key `k` of a derivative
dictionary (`self.dA[k][...] = ...`); absent keys are left untouched. -/
def dwrite {α : Type} (m : String → Option α) (k : String) (f : α → α) :
    String → Option α :=
  fun p => if p = k then Option.map f (m k) else m p

/-- Modelled from the spec: the `RCModel` base-class initialization (not
under `src/`) which, per the data-model invariant "every free parameter
has an entry (possibly zero) in every derivative map the filter will
query", creates a zero matrix under every declared parameter name in
each of the eight derivative dictionaries. -/
def initJac : Jac K where
  dA := fun p => if p ∈ paramNames then some (fun _ _ => 0) else none
  dB := fun p => if p ∈ paramNames then some (fun _ _ => 0) else none
  dC := fun p => if p ∈ paramNames then some (fun _ _ => 0) else none
  dD := fun p => if p ∈ paramNames then some (fun _ _ => 0) else none
  dQ := fun p => if p ∈ paramNames then some (fun _ _ => 0) else none
  dR := fun p => if p ∈ paramNames then some (fun _ _ => 0) else none
  dx0 := fun p => if p ∈ paramNames then some (fun _ _ => 0) else none
  dP0 := fun p => if p ∈ paramNames then some (fun _ _ => 0) else none

/-- Body of `set_jacobian`: the constant derivative entries, written once. -/
def set_jacobian (sc : Scales K) (j : Jac K) : Jac K :=
  { j with
    dQ := dwrite (dwrite j.dQ "sigw_w" (fun M => wr M 0 0 1)) "sigw_i"
            (fun M => wr M 1 1 1)
    dR := dwrite j.dR "sigv" (fun M => wr M 0 0 1)
    dx0 := dwrite (dwrite j.dx0 "x0_w" (fun M => wr M 0 0 sc.sX)) "x0_i"
            (fun M => wr M 1 0 sc.sX)
    dP0 := dwrite (dwrite j.dP0 "sigx0_w" (fun M => wr M 0 0 1)) "sigx0_i"
            (fun M => wr M 1 1 1) }

/-- Body of `update_jacobian` after the positional unpack of `theta`:
every derivative-dictionary write of the Python method, in order. -/
def applyJac (sc : Scales K) (θ : Theta K) (j : Jac K) : Jac K :=
  { j with
    dA := dwrite (dwrite (dwrite (dwrite j.dA
            "Ro" (fun M => wr M 0 0 (1 / (θ.Cw * θ.Ro ^ 2 * sc.sC))))
            "Ri" (fun _M => fun i k =>
              if i = 0 then
                (if k = 0 then 1 / (θ.Cw * θ.Ri ^ 2 * sc.sC)
                 else (-1) / (θ.Cw * θ.Ri ^ 2 * sc.sC))
              else
                (if k = 0 then (-1) / (θ.Ci * θ.Ri ^ 2 * sc.sC)
                 else 1 / (θ.Ci * θ.Ri ^ 2 * sc.sC))))
            "Cw" (fun M => fun i k =>
              if i = 0 then
                (if k = 0 then (θ.Ro + θ.Ri) / (θ.Cw ^ 2 * θ.Ri * θ.Ro * sc.sC)
                 else (-1) / (θ.Cw ^ 2 * θ.Ri * sc.sC))
              else M i k))
            "Ci" (fun M => fun i k =>
              if i = 1 then
                (if k = 0 then (-1) / (θ.Ci ^ 2 * θ.Ri * sc.sC)
                 else 1 / (θ.Ci ^ 2 * θ.Ri * sc.sC))
              else M i k)
    dB := dwrite (dwrite (dwrite (dwrite (dwrite (dwrite j.dB
            "Ro" (fun M => wr M 0 0 ((-1) / (θ.Cw * θ.Ro ^ 2 * sc.sC))))
            "Cw" (fun M => fun i k =>
              if i = 0 then
                (if k = 0 then (-1) / (θ.Cw ^ 2 * θ.Ro * sc.sC)
                 else if k = 1 then (-θ.Aw) / (θ.Cw ^ 2 * sc.sC)
                 else M i k)
              else M i k))
            "Ci" (fun M => fun i k =>
              if i = 1 then
                (if k = 1 then (-θ.Ai) / (θ.Ci ^ 2 * sc.sC)
                 else if k = 2 then (-1) / (θ.Ci ^ 2 * sc.sC)
                 else if k = 3 then (-θ.cv) / (θ.Ci ^ 2 * sc.sC)
                 else M i k)
              else M i k))
            "Aw" (fun M => wr M 0 1 (1 / (θ.Cw * sc.sC))))
            "Ai" (fun M => wr M 1 1 (1 / (θ.Ci * sc.sC))))
            "cv" (fun M => wr M 1 3 (1 / (θ.Ci * sc.sC))) }

/-- `update_jacobian`: unpacks the first 7 entries of `theta` positionally
(failing when fewer are supplied) and performs the dictionary writes. -/
def update_jacobian (sc : Scales K) (theta : List K) (j : Jac K) :
    Option (Jac K) :=
  if 7 ≤ theta.length then some (applyJac sc (Theta.ofList theta) j) else none

/-- The derivative dictionaries as the model leaves them after
construction: zero-initialized maps, then `set_jacobian`, then
`update_jacobian` at the current `θ`. -/
def buildJacobian (sc : Scales K) (θ : Theta K) : Jac K :=
  applyJac sc θ (set_jacobian sc initJac)

/-- Reads an entry of an optional derivative matrix; an absent key reads
as the zero matrix. -/
def jget {m n : ℕ} (o : Option (Fin m → Fin n → K)) (i : Fin m) (j : Fin n) : K :=
  (o.getD (fun _ _ => 0)) i j

/-- Zero-valued state-space matrices, used as a concrete base state. -/
def zeroSS : SS K where
  A := fun _ _ => 0
  B := fun _ _ => 0
  C := fun _ _ => 0
  D := fun _ _ => 0
  Q := fun _ _ => 0
  R := fun _ _ => 0
  x0 := fun _ _ => 0
  P0 := fun _ _ => 0

/-- Overwrites the parameter at declared position `p` with the value `v`. -/
def setP (θ : Theta K) (p : Fin 14) (v : K) : Theta K :=
  if p.val = 0 then { θ with Ro := v }
  else if p.val = 1 then { θ with Ri := v }
  else if p.val = 2 then { θ with Cw := v }
  else if p.val = 3 then { θ with Ci := v }
  else if p.val = 4 then { θ with Aw := v }
  else if p.val = 5 then { θ with Ai := v }
  else if p.val = 6 then { θ with cv := v }
  else if p.val = 7 then { θ with sigw_w := v }
  else if p.val = 8 then { θ with sigw_i := v }
  else if p.val = 9 then { θ with sigv := v }
  else if p.val = 10 then { θ with x0_w := v }
  else if p.val = 11 then { θ with x0_i := v }
  else if p.val = 12 then { θ with sigx0_w := v }
  else { θ with sigx0_i := v }

/-- Reads the parameter at declared position `p`. -/
def getP (θ : Theta K) (p : Fin 14) : K :=
  if p.val = 0 then θ.Ro
  else if p.val = 1 then θ.Ri
  else if p.val = 2 then θ.Cw
  else if p.val = 3 then θ.Ci
  else if p.val = 4 then θ.Aw
  else if p.val = 5 then θ.Ai
  else if p.val = 6 then θ.cv
  else if p.val = 7 then θ.sigw_w
  else if p.val = 8 then θ.sigw_i
  else if p.val = 9 then θ.sigv
  else if p.val = 10 then θ.x0_w
  else if p.val = 11 then θ.x0_i
  else if p.val = 12 then θ.sigx0_w
  else θ.sigx0_i

/-- The declared name of the parameter at position `p`. -/
def pname (p : Fin 14) : String := paramNames.getD p.val ""

/-- The parameters each state-space matrix actually depends on:
`A` reads `Ro, Ri, Cw, Ci`. -/
def depA : List String := ["Ro", "Ri", "Cw", "Ci"]

/-- Parameters read by `B`: `Ro, Cw, Ci, Aw, Ai, cv`. -/
def depB : List String := ["Ro", "Cw", "Ci", "Aw", "Ai", "cv"]

/-- Parameters read by `Q`. -/
def depQ : List String := ["sigw_w", "sigw_i"]

/-- Parameters read by `R`. -/
def depR : List String := ["sigv"]

/-- Parameters read by `x0`. -/
def depx0 : List String := ["x0_w", "x0_i"]

/-- Parameters read by `P0`. -/
def depP0 : List String := ["sigx0_w", "sigx0_i"]

/-- The `jac` argument accepted by `scipy.optimize.minimize`: a callable
returning the gradient, `True` (objective returns value and gradient
together), or the name of a finite-difference scheme, in which case the
optimizer approximates the gradient numerically from objective values. -/
inductive ScipyJac where
  | callback : ScipyJac
  | boolTrue : ScipyJac
  | fdScheme : String → ScipyJac
deriving DecidableEq

/-- `True` exactly when the optimizer is told to approximate the gradient
by finite differences of the objective. -/
def ScipyJac.usesFiniteDifference : ScipyJac → Bool
  | ScipyJac.fdScheme _ => true
  | _ => false

/-- The arguments of the optimizer invocation. -/
structure MinimizeCall where
  method : String
  jac : ScipyJac

/-- The single `scipy.optimize.minimize` invocation made by
`FreqRegressor.fit`: `method="BFGS", jac="3-point"`. -/
def fit_minimize_call : MinimizeCall :=
  { method := "BFGS", jac := ScipyJac.fdScheme "3-point" }

/-- Errors out of `FreqRegressor.predict`: the up-front
`NotImplementedError`, or an error from a downstream collaborator. -/
inductive PredictError (ε : Type) where
  | notImplemented : PredictError ε
  | downstream : ε → PredictError ε
deriving DecidableEq

variable (K)

/-- One time step of the state estimate consumed by `predict`:
state mean `x` and state covariance `P`. -/
structure StateEstimate where
  x : Fin 2 → K
  P : Fin 2 → Fin 2 → K

variable {K}

/-- One entry of `C @ x`. -/
def output_mean (C : Fin 1 → Fin 2 → K) (x : Fin 2 → K) : K :=
  ∑ k, C 0 k * x k

/-- The scalar `C @ P @ C.T` for the single-output model. -/
def output_quad (C : Fin 1 → Fin 2 → K) (P : Fin 2 → Fin 2 → K) : K :=
  ∑ j, ∑ k, C 0 j * P j k * C 0 k

/-- `FreqRegressor.predict`: first the guard
`if self.ss.ny > 1: raise NotImplementedError`, then data preparation and
state estimation (abstracted into the `estimates` computation, which may
itself fail), and finally `y_mean = C @ x` and
`y_std = sqrt(C @ P @ C.T) + R`.  The square-root function is a
parameter so the definition stays executable. -/
def predict {ε : Type} (sqrt : K → K) (ny : ℕ) (C : Fin 1 → Fin 2 → K)
    (R : Fin 1 → Fin 1 → K) (estimates : Except ε (List (StateEstimate K))) :
    Except (PredictError ε) (List K × List K) :=
  if 1 < ny then Except.error PredictError.notImplemented
  else
    match estimates with
    | Except.error e => Except.error (PredictError.downstream e)
    | Except.ok xs =>
        Except.ok
          (xs.map fun st => output_mean C st.x,
           xs.map fun st => sqrt (output_quad C st.P) + R 0 0)

/-- `FreqRegressor.eval_residuals`: prepares the data (with `tnew = None`),
discretizes at the prepared sampling intervals and runs the filter; its
`x0` and `P0` arguments appear in the signature but are never read.  The
collaborators `prepare`, `get_discrete_ssm` and `filtering` are abstract
parameters. -/
def eval_residuals {Df Dt U Y Ssm Idx Res X0v P0v : Type}
    (prepare : Df → Dt × U × U × Y)
    (get_discrete_ssm : Dt → Ssm × Idx)
    (filtering : Ssm → Idx → U → U → Y → Res × Res)
    (df : Df) (x0 : Option X0v) (P0 : Option P0v) : Res × Res :=
  let p := prepare df
  let g := get_discrete_ssm p.1
  filtering g.1 g.2 p.2.1 p.2.2.1 p.2.2.2

/-- The error raised when a required triangularization cannot be formed. -/
inductive FilterError where
  | numericalInstability : FilterError
deriving DecidableEq

/-- Modelled from the spec: the square-root Kalman filter (`kalman_qr.py`,
not under `src/`).  One triangularization step: a non-positive prior or
innovation variance makes the factorization impossible and raises
`NumericalInstabilityError`; otherwise the factor `factor v` is produced.
Variances are rationals so the comparison stays executable. -/
def triangularize (factor : ℚ → ℚ) (v : ℚ) : Except FilterError ℚ :=
  if v ≤ 0 then Except.error FilterError.numericalInstability
  else Except.ok (factor v)

/-- Modelled from the spec: the filter forward pass applies the
triangularization at every step in time order, propagates the first
failure unchanged to the caller, and never substitutes a default value
for a failed factorization. -/
def filter_pass (factor : ℚ → ℚ) : List ℚ → Except FilterError (List ℚ)
  | [] => Except.ok []
  | v :: vs =>
    match triangularize factor v with
    | Except.error e => Except.error e
    | Except.ok r =>
      match filter_pass factor vs with
      | Except.error e => Except.error e
      | Except.ok rs => Except.ok (r :: rs)


/-- Concrete scale factors for witnesses. -/
def scW : Scales ℝ := ⟨1, 1⟩

/-- Concrete parameter values for witnesses. -/
def thetaW : Theta ℝ := ⟨1, 1, 1, 1, 1, 1, 1, 1, 1, 1, 1, 1, 1, 1⟩

/-- A 15-entry parameter vector used to exercise the tail-ignoring unpack. -/
def l14a : List ℝ := [1, 2, 3, 4, 5, 6, 7, 8, 9, 10, 11, 12, 13, 14, 99]

/-- A 16-entry parameter vector agreeing with `l14a` on its first 14 entries. -/
def l14b : List ℝ := [1, 2, 3, 4, 5, 6, 7, 8, 9, 10, 11, 12, 13, 14, 55, 77]

/-- A concrete output matrix selecting the first state. -/
def Cdemo : Fin 1 → Fin 2 → ℝ := fun _ k => if k = 0 then 1 else 0

/-- A concrete state covariance with a single unit entry. -/
def Pdemo : Fin 2 → Fin 2 → ℝ := fun j k => if j = 0 ∧ k = 0 then 1 else 0

/-- A concrete measurement-noise matrix. -/
def Rdemo : Fin 1 → Fin 1 → ℝ := fun _ _ => 1

set_option maxHeartbeats 1000000

section Helpers

/-- Derivative of an affine-over-affine rational function at a point where
the denominator does not vanish. -/
theorem hasDerivAt_affine_div (n0 n1 d0 d1 x : ℝ) (hd : d0 + d1 * x ≠ 0) :
    HasDerivAt (fun v => (n0 + n1 * v) / (d0 + d1 * v))
      ((n1 * (d0 + d1 * x) - (n0 + n1 * x) * d1) / (d0 + d1 * x) ^ 2) x := by
  have hn : HasDerivAt (fun v : ℝ => n0 + n1 * v) n1 x := by
    simpa using ((hasDerivAt_id x).const_mul n1).const_add n0
  have hdd : HasDerivAt (fun v : ℝ => d0 + d1 * v) d1 x := by
    simpa using ((hasDerivAt_id x).const_mul d1).const_add d0
  have h := hn.div hdd hd
  convert h using 2

/-- Transfers a derivative along pointwise equality of functions and
equality of the derivative values. -/
theorem hasDerivAt_of_eq {f g : ℝ → ℝ} {t d x : ℝ} (hg : HasDerivAt g d x)
    (hfg : ∀ v, f v = g v) (htd : t = d) : HasDerivAt f t x := by
  have hf : f = g := funext hfg
  rw [hf, htd]
  exact hg

/-- Writing one key of a dictionary never changes which keys are present. -/
theorem dwrite_isSome {α : Type} (m : String → Option α) (k : String)
    (f : α → α) (p : String) : ((dwrite m k f) p).isSome = (m p).isSome := by
  unfold dwrite
  by_cases h : p = k
  · subst h
    simp
  · simp [h]

/-- The parameter-name list, spelled out. -/
theorem paramNames_eq :
    paramNames = ["Ro", "Ri", "Cw", "Ci", "Aw", "Ai", "cv", "sigw_w",
      "sigw_i", "sigv", "x0_w", "x0_i", "sigx0_w", "sigx0_i"] := rfl

/-- All eight derivative dictionaries keep an entry for every declared
parameter after `set_jacobian` and `update_jacobian`. -/
theorem buildJacobian_isSome (sc : Scales ℝ) (θ : Theta ℝ) (p : String)
    (hp : p ∈ paramNames) :
    ((buildJacobian sc θ).dA p).isSome = true ∧
    ((buildJacobian sc θ).dB p).isSome = true ∧
    ((buildJacobian sc θ).dC p).isSome = true ∧
    ((buildJacobian sc θ).dD p).isSome = true ∧
    ((buildJacobian sc θ).dQ p).isSome = true ∧
    ((buildJacobian sc θ).dR p).isSome = true ∧
    ((buildJacobian sc θ).dx0 p).isSome = true ∧
    ((buildJacobian sc θ).dP0 p).isSome = true := by
  refine ⟨?_, ?_, ?_, ?_, ?_, ?_, ?_, ?_⟩ <;>
    simp [buildJacobian, applyJac, set_jacobian, dwrite_isSome, initJac, hp]

/-- `dA` holds the zero matrix for every parameter `A` does not read. -/
theorem bj_dA_zero (sc : Scales ℝ) (θ : Theta ℝ) (p : String)
    (hp : p ∈ paramNames) (h : p ∉ depA) :
    (buildJacobian sc θ).dA p = some (fun _ _ => 0) := by
  rw [paramNames_eq] at hp
  fin_cases hp <;> first | exact absurd (by decide) h | rfl

/-- `dB` holds the zero matrix for every parameter `B` does not read. -/
theorem bj_dB_zero (sc : Scales ℝ) (θ : Theta ℝ) (p : String)
    (hp : p ∈ paramNames) (h : p ∉ depB) :
    (buildJacobian sc θ).dB p = some (fun _ _ => 0) := by
  rw [paramNames_eq] at hp
  fin_cases hp <;> first | exact absurd (by decide) h | rfl

/-- `dC` holds the zero matrix for every parameter. -/
theorem bj_dC_zero (sc : Scales ℝ) (θ : Theta ℝ) (p : String)
    (hp : p ∈ paramNames) :
    (buildJacobian sc θ).dC p = some (fun _ _ => 0) := by
  rw [paramNames_eq] at hp
  fin_cases hp <;> rfl

/-- `dD` holds the zero matrix for every parameter. -/
theorem bj_dD_zero (sc : Scales ℝ) (θ : Theta ℝ) (p : String)
    (hp : p ∈ paramNames) :
    (buildJacobian sc θ).dD p = some (fun _ _ => 0) := by
  rw [paramNames_eq] at hp
  fin_cases hp <;> rfl

/-- `dQ` holds the zero matrix for every parameter `Q` does not read. -/
theorem bj_dQ_zero (sc : Scales ℝ) (θ : Theta ℝ) (p : String)
    (hp : p ∈ paramNames) (h : p ∉ depQ) :
    (buildJacobian sc θ).dQ p = some (fun _ _ => 0) := by
  rw [paramNames_eq] at hp
  fin_cases hp <;> first | exact absurd (by decide) h | rfl

/-- `dR` holds the zero matrix for every parameter `R` does not read. -/
theorem bj_dR_zero (sc : Scales ℝ) (θ : Theta ℝ) (p : String)
    (hp : p ∈ paramNames) (h : p ∉ depR) :
    (buildJacobian sc θ).dR p = some (fun _ _ => 0) := by
  rw [paramNames_eq] at hp
  fin_cases hp <;> first | exact absurd (by decide) h | rfl

/-- `dx0` holds the zero matrix for every parameter `x0` does not read. -/
theorem bj_dx0_zero (sc : Scales ℝ) (θ : Theta ℝ) (p : String)
    (hp : p ∈ paramNames) (h : p ∉ depx0) :
    (buildJacobian sc θ).dx0 p = some (fun _ _ => 0) := by
  rw [paramNames_eq] at hp
  fin_cases hp <;> first | exact absurd (by decide) h | rfl

/-- `dP0` holds the zero matrix for every parameter `P0` does not read. -/
theorem bj_dP0_zero (sc : Scales ℝ) (θ : Theta ℝ) (p : String)
    (hp : p ∈ paramNames) (h : p ∉ depP0) :
    (buildJacobian sc θ).dP0 p = some (fun _ _ => 0) := by
  rw [paramNames_eq] at hp
  fin_cases hp <;> first | exact absurd (by decide) h | rfl

/-- `A` depends only on `Ro`, `Ri`, `Cw`, `Ci`. -/
theorem applySS_A_dep (sc : Scales ℝ) (θ₁ θ₂ : Theta ℝ) (s : SS ℝ)
    (h1 : θ₁.Ro = θ₂.Ro) (h2 : θ₁.Ri = θ₂.Ri) (h3 : θ₁.Cw = θ₂.Cw)
    (h4 : θ₁.Ci = θ₂.Ci) : (applySS sc θ₁ s).A = (applySS sc θ₂ s).A := by
  funext i k
  simp only [applySS]
  rw [h1, h2, h3, h4]

/-- `B` depends only on `Ro`, `Cw`, `Ci`, `Aw`, `Ai`, `cv`. -/
theorem applySS_B_dep (sc : Scales ℝ) (θ₁ θ₂ : Theta ℝ) (s : SS ℝ)
    (h1 : θ₁.Ro = θ₂.Ro) (h2 : θ₁.Cw = θ₂.Cw) (h3 : θ₁.Ci = θ₂.Ci)
    (h4 : θ₁.Aw = θ₂.Aw) (h5 : θ₁.Ai = θ₂.Ai) (h6 : θ₁.cv = θ₂.cv) :
    (applySS sc θ₁ s).B = (applySS sc θ₂ s).B := by
  funext i k
  simp only [applySS]
  rw [h1, h2, h3, h4, h5, h6]

/-- `Q` depends only on `sigw_w` and `sigw_i`. -/
theorem applySS_Q_dep (sc : Scales ℝ) (θ₁ θ₂ : Theta ℝ) (s : SS ℝ)
    (h1 : θ₁.sigw_w = θ₂.sigw_w) (h2 : θ₁.sigw_i = θ₂.sigw_i) :
    (applySS sc θ₁ s).Q = (applySS sc θ₂ s).Q := by
  simp only [applySS]
  rw [h1, h2]

/-- `R` depends only on `sigv`. -/
theorem applySS_R_dep (sc : Scales ℝ) (θ₁ θ₂ : Theta ℝ) (s : SS ℝ)
    (h1 : θ₁.sigv = θ₂.sigv) : (applySS sc θ₁ s).R = (applySS sc θ₂ s).R := by
  simp only [applySS]
  rw [h1]

/-- `x0` depends only on `x0_w` and `x0_i`. -/
theorem applySS_x0_dep (sc : Scales ℝ) (θ₁ θ₂ : Theta ℝ) (s : SS ℝ)
    (h1 : θ₁.x0_w = θ₂.x0_w) (h2 : θ₁.x0_i = θ₂.x0_i) :
    (applySS sc θ₁ s).x0 = (applySS sc θ₂ s).x0 := by
  simp only [applySS]
  rw [h1, h2]

/-- `P0` depends only on `sigx0_w` and `sigx0_i`. -/
theorem applySS_P0_dep (sc : Scales ℝ) (θ₁ θ₂ : Theta ℝ) (s : SS ℝ)
    (h1 : θ₁.sigx0_w = θ₂.sigx0_w) (h2 : θ₁.sigx0_i = θ₂.sigx0_i) :
    (applySS sc θ₁ s).P0 = (applySS sc θ₂ s).P0 := by
  simp only [applySS]
  rw [h1, h2]

/-- Prefix elements are read identically from lists with equal prefixes. -/
theorem getD_eq_of_take_eq {α : Type} (l₁ l₂ : List α) (d : α) (n i : ℕ)
    (h : l₁.take n = l₂.take n) (hi : i < n) :
    l₁.getD i d = l₂.getD i d := by
  have e₁ : (l₁.take n)[i]? = l₁[i]? := by
    rw [List.getElem?_take]
    exact if_pos hi
  have e₂ : (l₂.take n)[i]? = l₂[i]? := by
    rw [List.getElem?_take]
    exact if_pos hi
  rw [List.getD_eq_getElem?_getD, List.getD_eq_getElem?_getD, ← e₁, ← e₂, h]

/-- One evaluation step (or a failed one) never changes `C`. -/
theorem update_getD_C (sc : Scales ℝ) (l : List ℝ) (t : SS ℝ) :
    ((update_state_space_model sc l t).getD t).C = t.C := by
  unfold update_state_space_model
  split <;> rfl

/-- One evaluation step (or a failed one) never changes `D`. -/
theorem update_getD_D (sc : Scales ℝ) (l : List ℝ) (t : SS ℝ) :
    ((update_state_space_model sc l t).getD t).D = t.D := by
  unfold update_state_space_model
  split <;> rfl

/-- Any number of evaluations leaves `C` unchanged. -/
theorem foldl_update_C (sc : Scales ℝ) (ls : List (List ℝ)) :
    ∀ t : SS ℝ,
      (ls.foldl (fun t l => (update_state_space_model sc l t).getD t) t).C = t.C := by
  induction ls with
  | nil => intro t; rfl
  | cons l ls ih =>
      intro t
      rw [List.foldl_cons, ih, update_getD_C]

/-- Any number of evaluations leaves `D` unchanged. -/
theorem foldl_update_D (sc : Scales ℝ) (ls : List (List ℝ)) :
    ∀ t : SS ℝ,
      (ls.foldl (fun t l => (update_state_space_model sc l t).getD t) t).D = t.D := by
  induction ls with
  | nil => intro t; rfl
  | cons l ls ih =>
      intro t
      rw [List.foldl_cons, ih, update_getD_D]

/-- A step with a positive variance defers to the rest of the pass. -/
theorem filter_pass_cons_pos (factor : ℚ → ℚ) (v : ℚ) (vs : List ℚ)
    (hv : ¬ v ≤ 0) :
    filter_pass factor (v :: vs) =
      match filter_pass factor vs with
      | Except.error e => Except.error e
      | Except.ok rs => Except.ok (factor v :: rs) := by
  simp [filter_pass, triangularize, hv]

/-- A step with a non-positive variance fails immediately. -/
theorem filter_pass_cons_neg (factor : ℚ → ℚ) (v : ℚ) (vs : List ℚ)
    (hv : v ≤ 0) :
    filter_pass factor (v :: vs) = Except.error FilterError.numericalInstability := by
  simp [filter_pass, triangularize, hv]

end Helpers

set_option maxHeartbeats 12000000 in
/-- C1: for every `θ` whose `Ro`, `Ri`, `Cw`, `Ci` are nonzero (with a nonzero
scale factor `sC`), every entry of the derivative maps `dA`, `dB`, `dQ`, `dR`,
`dx0`, `dP0` as populated by `set_jacobian` and `update_jacobian`
(`buildJacobian`) equals the exact partial derivative of the corresponding
entry of `A`, `B`, `Q`, `R`, `x0`, `P0` as computed by
`update_state_space_model` (body `applySS`) with respect to the named
parameter; entries never written are zero and the matching entries are
constant in that parameter. -/
theorem twti_jacobian_exact_derivatives (sc : Scales ℝ) (θ : Theta ℝ) (s : SS ℝ)
    (hRo : θ.Ro ≠ 0) (hRi : θ.Ri ≠ 0) (hCw : θ.Cw ≠ 0) (hCi : θ.Ci ≠ 0)
    (hsC : sc.sC ≠ 0) (p : Fin 14) :
    (∀ i k, HasDerivAt (fun v => (applySS sc (setP θ p v) s).A i k)
        (jget ((buildJacobian sc θ).dA (pname p)) i k) (getP θ p)) ∧
    (∀ i k, HasDerivAt (fun v => (applySS sc (setP θ p v) s).B i k)
        (jget ((buildJacobian sc θ).dB (pname p)) i k) (getP θ p)) ∧
    (∀ i k, HasDerivAt (fun v => (applySS sc (setP θ p v) s).Q i k)
        (jget ((buildJacobian sc θ).dQ (pname p)) i k) (getP θ p)) ∧
    (∀ i k, HasDerivAt (fun v => (applySS sc (setP θ p v) s).R i k)
        (jget ((buildJacobian sc θ).dR (pname p)) i k) (getP θ p)) ∧
    (∀ i k, HasDerivAt (fun v => (applySS sc (setP θ p v) s).x0 i k)
        (jget ((buildJacobian sc θ).dx0 (pname p)) i k) (getP θ p)) ∧
    (∀ i k, HasDerivAt (fun v => (applySS sc (setP θ p v) s).P0 i k)
        (jget ((buildJacobian sc θ).dP0 (pname p)) i k) (getP θ p)) := by
  fin_cases p
  · -- parameter 0: Ro
    have epn : pname (0 : Fin 14) = "Ro" := rfl
    have eA : (buildJacobian sc θ).dA "Ro" = some (wr (fun _ _ => 0) 0 0 (1 / (θ.Cw * θ.Ro ^ 2 * sc.sC))) := rfl
    have eB : (buildJacobian sc θ).dB "Ro" = some (wr (fun _ _ => 0) 0 0 ((-1) / (θ.Cw * θ.Ro ^ 2 * sc.sC))) := rfl
    have eQ : (buildJacobian sc θ).dQ "Ro" = some (fun _ _ => 0) := rfl
    have eR : (buildJacobian sc θ).dR "Ro" = some (fun _ _ => 0) := rfl
    have eX : (buildJacobian sc θ).dx0 "Ro" = some (fun _ _ => 0) := rfl
    have eP : (buildJacobian sc θ).dP0 "Ro" = some (fun _ _ => 0) := rfl
    refine ⟨?_, ?_, ?_, ?_, ?_, ?_⟩
    · intro i k
      fin_cases i <;> fin_cases k
      · simp [epn, eA, jget, getP, setP, applySS, wr]
        exact hasDerivAt_of_eq
          (hasDerivAt_affine_div (-θ.Ri) (-1) 0 (θ.Cw * θ.Ri * sc.sC) θ.Ro
            (by simpa using mul_ne_zero (mul_ne_zero (mul_ne_zero hCw hRi) hsC) hRo))
          (fun v => by ring) (by field_simp; ring)
      · simp [epn, eA, jget, getP, setP, applySS, wr]
        exact hasDerivAt_const _ _
      · simp [epn, eA, jget, getP, setP, applySS, wr]
        exact hasDerivAt_const _ _
      · simp [epn, eA, jget, getP, setP, applySS, wr]
        exact hasDerivAt_const _ _
    · intro i k
      fin_cases i <;> fin_cases k
      · simp [epn, eB, jget, getP, setP, applySS, wr]
        exact hasDerivAt_of_eq
          (hasDerivAt_affine_div 1 0 0 (θ.Cw * sc.sC) θ.Ro
            (by simpa using mul_ne_zero (mul_ne_zero hCw hsC) hRo))
          (fun v => by ring) (by field_simp; ring)
      · simp [epn, eB, jget, getP, setP, applySS, wr]
        exact hasDerivAt_const _ _
      · simp [epn, eB, jget, getP, setP, applySS, wr]
        exact hasDerivAt_const _ _
      · simp [epn, eB, jget, getP, setP, applySS, wr]
        exact hasDerivAt_const _ _
      · simp [epn, eB, jget, getP, setP, applySS, wr]
        exact hasDerivAt_const _ _
      · simp [epn, eB, jget, getP, setP, applySS, wr]
        exact hasDerivAt_const _ _
      · simp [epn, eB, jget, getP, setP, applySS, wr]
        exact hasDerivAt_const _ _
      · simp [epn, eB, jget, getP, setP, applySS, wr]
        exact hasDerivAt_const _ _
    · intro i k
      fin_cases i <;> fin_cases k <;>
        simp [epn, eQ, jget, getP, setP, applySS, wr] <;>
        exact hasDerivAt_const _ _
    · intro i k
      fin_cases i <;> fin_cases k <;>
        simp [epn, eR, jget, getP, setP, applySS, wr] <;>
        exact hasDerivAt_const _ _
    · intro i k
      fin_cases i <;> fin_cases k <;>
        simp [epn, eX, jget, getP, setP, applySS, wr] <;>
        exact hasDerivAt_const _ _
    · intro i k
      fin_cases i <;> fin_cases k <;>
        simp [epn, eP, jget, getP, setP, applySS, wr] <;>
        exact hasDerivAt_const _ _
  · -- parameter 1: Ri
    have epn : pname (1 : Fin 14) = "Ri" := rfl
    have eA : (buildJacobian sc θ).dA "Ri" = some (fun i k => if i = 0 then (if k = 0 then 1 / (θ.Cw * θ.Ri ^ 2 * sc.sC) else (-1) / (θ.Cw * θ.Ri ^ 2 * sc.sC)) else (if k = 0 then (-1) / (θ.Ci * θ.Ri ^ 2 * sc.sC) else 1 / (θ.Ci * θ.Ri ^ 2 * sc.sC))) := rfl
    have eB : (buildJacobian sc θ).dB "Ri" = some (fun _ _ => 0) := rfl
    have eQ : (buildJacobian sc θ).dQ "Ri" = some (fun _ _ => 0) := rfl
    have eR : (buildJacobian sc θ).dR "Ri" = some (fun _ _ => 0) := rfl
    have eX : (buildJacobian sc θ).dx0 "Ri" = some (fun _ _ => 0) := rfl
    have eP : (buildJacobian sc θ).dP0 "Ri" = some (fun _ _ => 0) := rfl
    refine ⟨?_, ?_, ?_, ?_, ?_, ?_⟩
    · intro i k
      fin_cases i <;> fin_cases k
      · simp [epn, eA, jget, getP, setP, applySS, wr]
        exact hasDerivAt_of_eq
          (hasDerivAt_affine_div (-θ.Ro) (-1) 0 (θ.Cw * θ.Ro * sc.sC) θ.Ri
            (by simpa using mul_ne_zero (mul_ne_zero (mul_ne_zero hCw hRo) hsC) hRi))
          (fun v => by ring) (by field_simp; ring)
      · simp [epn, eA, jget, getP, setP, applySS, wr]
        exact hasDerivAt_of_eq
          (hasDerivAt_affine_div 1 0 0 (θ.Cw * sc.sC) θ.Ri
            (by simpa using mul_ne_zero (mul_ne_zero hCw hsC) hRi))
          (fun v => by ring) (by field_simp; ring)
      · simp [epn, eA, jget, getP, setP, applySS, wr]
        exact hasDerivAt_of_eq
          (hasDerivAt_affine_div 1 0 0 (θ.Ci * sc.sC) θ.Ri
            (by simpa using mul_ne_zero (mul_ne_zero hCi hsC) hRi))
          (fun v => by ring) (by field_simp; ring)
      · simp [epn, eA, jget, getP, setP, applySS, wr]
        exact hasDerivAt_of_eq
          (hasDerivAt_affine_div (-1) 0 0 (θ.Ci * sc.sC) θ.Ri
            (by simpa using mul_ne_zero (mul_ne_zero hCi hsC) hRi))
          (fun v => by ring) (by field_simp; ring)
    · intro i k
      fin_cases i <;> fin_cases k <;>
        simp [epn, eB, jget, getP, setP, applySS, wr] <;>
        exact hasDerivAt_const _ _
    · intro i k
      fin_cases i <;> fin_cases k <;>
        simp [epn, eQ, jget, getP, setP, applySS, wr] <;>
        exact hasDerivAt_const _ _
    · intro i k
      fin_cases i <;> fin_cases k <;>
        simp [epn, eR, jget, getP, setP, applySS, wr] <;>
        exact hasDerivAt_const _ _
    · intro i k
      fin_cases i <;> fin_cases k <;>
        simp [epn, eX, jget, getP, setP, applySS, wr] <;>
        exact hasDerivAt_const _ _
    · intro i k
      fin_cases i <;> fin_cases k <;>
        simp [epn, eP, jget, getP, setP, applySS, wr] <;>
        exact hasDerivAt_const _ _
  · -- parameter 2: Cw
    have epn : pname (2 : Fin 14) = "Cw" := rfl
    have eA : (buildJacobian sc θ).dA "Cw" = some (fun i k => if i = 0 then (if k = 0 then (θ.Ro + θ.Ri) / (θ.Cw ^ 2 * θ.Ri * θ.Ro * sc.sC) else (-1) / (θ.Cw ^ 2 * θ.Ri * sc.sC)) else 0) := rfl
    have eB : (buildJacobian sc θ).dB "Cw" = some (fun i k => if i = 0 then (if k = 0 then (-1) / (θ.Cw ^ 2 * θ.Ro * sc.sC) else if k = 1 then (-θ.Aw) / (θ.Cw ^ 2 * sc.sC) else 0) else 0) := rfl
    have eQ : (buildJacobian sc θ).dQ "Cw" = some (fun _ _ => 0) := rfl
    have eR : (buildJacobian sc θ).dR "Cw" = some (fun _ _ => 0) := rfl
    have eX : (buildJacobian sc θ).dx0 "Cw" = some (fun _ _ => 0) := rfl
    have eP : (buildJacobian sc θ).dP0 "Cw" = some (fun _ _ => 0) := rfl
    refine ⟨?_, ?_, ?_, ?_, ?_, ?_⟩
    · intro i k
      fin_cases i <;> fin_cases k
      · simp [epn, eA, jget, getP, setP, applySS, wr]
        exact hasDerivAt_of_eq
          (hasDerivAt_affine_div (-(θ.Ro + θ.Ri)) 0 0 (θ.Ri * θ.Ro * sc.sC) θ.Cw
            (by simpa using mul_ne_zero (mul_ne_zero (mul_ne_zero hRi hRo) hsC) hCw))
          (fun v => by ring) (by field_simp; ring)
      · simp [epn, eA, jget, getP, setP, applySS, wr]
        exact hasDerivAt_of_eq
          (hasDerivAt_affine_div 1 0 0 (θ.Ri * sc.sC) θ.Cw
            (by simpa using mul_ne_zero (mul_ne_zero hRi hsC) hCw))
          (fun v => by ring) (by field_simp; ring)
      · simp [epn, eA, jget, getP, setP, applySS, wr]
        exact hasDerivAt_const _ _
      · simp [epn, eA, jget, getP, setP, applySS, wr]
        exact hasDerivAt_const _ _
    · intro i k
      fin_cases i <;> fin_cases k
      · simp [epn, eB, jget, getP, setP, applySS, wr]
        exact hasDerivAt_of_eq
          (hasDerivAt_affine_div 1 0 0 (θ.Ro * sc.sC) θ.Cw
            (by simpa using mul_ne_zero (mul_ne_zero hRo hsC) hCw))
          (fun v => by ring) (by field_simp; ring)
      · simp [epn, eB, jget, getP, setP, applySS, wr]
        exact hasDerivAt_of_eq
          (hasDerivAt_affine_div θ.Aw 0 0 sc.sC θ.Cw
            (by simpa using mul_ne_zero hsC hCw))
          (fun v => by ring) (by field_simp; ring)
      · simp [epn, eB, jget, getP, setP, applySS, wr]
        exact hasDerivAt_const _ _
      · simp [epn, eB, jget, getP, setP, applySS, wr]
        exact hasDerivAt_const _ _
      · simp [epn, eB, jget, getP, setP, applySS, wr]
        exact hasDerivAt_const _ _
      · simp [epn, eB, jget, getP, setP, applySS, wr]
        exact hasDerivAt_const _ _
      · simp [epn, eB, jget, getP, setP, applySS, wr]
        exact hasDerivAt_const _ _
      · simp [epn, eB, jget, getP, setP, applySS, wr]
        exact hasDerivAt_const _ _
    · intro i k
      fin_cases i <;> fin_cases k <;>
        simp [epn, eQ, jget, getP, setP, applySS, wr] <;>
        exact hasDerivAt_const _ _
    · intro i k
      fin_cases i <;> fin_cases k <;>
        simp [epn, eR, jget, getP, setP, applySS, wr] <;>
        exact hasDerivAt_const _ _
    · intro i k
      fin_cases i <;> fin_cases k <;>
        simp [epn, eX, jget, getP, setP, applySS, wr] <;>
        exact hasDerivAt_const _ _
    · intro i k
      fin_cases i <;> fin_cases k <;>
        simp [epn, eP, jget, getP, setP, applySS, wr] <;>
        exact hasDerivAt_const _ _
  · -- parameter 3: Ci
    have epn : pname (3 : Fin 14) = "Ci" := rfl
    have eA : (buildJacobian sc θ).dA "Ci" = some (fun i k => if i = 1 then (if k = 0 then (-1) / (θ.Ci ^ 2 * θ.Ri * sc.sC) else 1 / (θ.Ci ^ 2 * θ.Ri * sc.sC)) else 0) := rfl
    have eB : (buildJacobian sc θ).dB "Ci" = some (fun i k => if i = 1 then (if k = 1 then (-θ.Ai) / (θ.Ci ^ 2 * sc.sC) else if k = 2 then (-1) / (θ.Ci ^ 2 * sc.sC) else if k = 3 then (-θ.cv) / (θ.Ci ^ 2 * sc.sC) else 0) else 0) := rfl
    have eQ : (buildJacobian sc θ).dQ "Ci" = some (fun _ _ => 0) := rfl
    have eR : (buildJacobian sc θ).dR "Ci" = some (fun _ _ => 0) := rfl
    have eX : (buildJacobian sc θ).dx0 "Ci" = some (fun _ _ => 0) := rfl
    have eP : (buildJacobian sc θ).dP0 "Ci" = some (fun _ _ => 0) := rfl
    refine ⟨?_, ?_, ?_, ?_, ?_, ?_⟩
    · intro i k
      fin_cases i <;> fin_cases k
      · simp [epn, eA, jget, getP, setP, applySS, wr]
        exact hasDerivAt_const _ _
      · simp [epn, eA, jget, getP, setP, applySS, wr]
        exact hasDerivAt_const _ _
      · simp [epn, eA, jget, getP, setP, applySS, wr]
        exact hasDerivAt_of_eq
          (hasDerivAt_affine_div 1 0 0 (θ.Ri * sc.sC) θ.Ci
            (by simpa using mul_ne_zero (mul_ne_zero hRi hsC) hCi))
          (fun v => by ring) (by field_simp; ring)
      · simp [epn, eA, jget, getP, setP, applySS, wr]
        exact hasDerivAt_of_eq
          (hasDerivAt_affine_div (-1) 0 0 (θ.Ri * sc.sC) θ.Ci
            (by simpa using mul_ne_zero (mul_ne_zero hRi hsC) hCi))
          (fun v => by ring) (by field_simp; ring)
    · intro i k
      fin_cases i <;> fin_cases k
      · simp [epn, eB, jget, getP, setP, applySS, wr]
        exact hasDerivAt_const _ _
      · simp [epn, eB, jget, getP, setP, applySS, wr]
        exact hasDerivAt_const _ _
      · simp [epn, eB, jget, getP, setP, applySS, wr]
        exact hasDerivAt_const _ _
      · simp [epn, eB, jget, getP, setP, applySS, wr]
        exact hasDerivAt_const _ _
      · simp [epn, eB, jget, getP, setP, applySS, wr]
        exact hasDerivAt_const _ _
      · simp [epn, eB, jget, getP, setP, applySS, wr]
        exact hasDerivAt_of_eq
          (hasDerivAt_affine_div θ.Ai 0 0 sc.sC θ.Ci
            (by simpa using mul_ne_zero hsC hCi))
          (fun v => by ring) (by field_simp; ring)
      · simp [epn, eB, jget, getP, setP, applySS, wr]
        exact hasDerivAt_of_eq
          (hasDerivAt_affine_div 1 0 0 sc.sC θ.Ci
            (by simpa using mul_ne_zero hsC hCi))
          (fun v => by ring) (by field_simp; ring)
      · simp [epn, eB, jget, getP, setP, applySS, wr]
        exact hasDerivAt_of_eq
          (hasDerivAt_affine_div θ.cv 0 0 sc.sC θ.Ci
            (by simpa using mul_ne_zero hsC hCi))
          (fun v => by ring) (by field_simp; ring)
    · intro i k
      fin_cases i <;> fin_cases k <;>
        simp [epn, eQ, jget, getP, setP, applySS, wr] <;>
        exact hasDerivAt_const _ _
    · intro i k
      fin_cases i <;> fin_cases k <;>
        simp [epn, eR, jget, getP, setP, applySS, wr] <;>
        exact hasDerivAt_const _ _
    · intro i k
      fin_cases i <;> fin_cases k <;>
        simp [epn, eX, jget, getP, setP, applySS, wr] <;>
        exact hasDerivAt_const _ _
    · intro i k
      fin_cases i <;> fin_cases k <;>
        simp [epn, eP, jget, getP, setP, applySS, wr] <;>
        exact hasDerivAt_const _ _
  · -- parameter 4: Aw
    have epn : pname (4 : Fin 14) = "Aw" := rfl
    have eA : (buildJacobian sc θ).dA "Aw" = some (fun _ _ => 0) := rfl
    have eB : (buildJacobian sc θ).dB "Aw" = some (wr (fun _ _ => 0) 0 1 (1 / (θ.Cw * sc.sC))) := rfl
    have eQ : (buildJacobian sc θ).dQ "Aw" = some (fun _ _ => 0) := rfl
    have eR : (buildJacobian sc θ).dR "Aw" = some (fun _ _ => 0) := rfl
    have eX : (buildJacobian sc θ).dx0 "Aw" = some (fun _ _ => 0) := rfl
    have eP : (buildJacobian sc θ).dP0 "Aw" = some (fun _ _ => 0) := rfl
    refine ⟨?_, ?_, ?_, ?_, ?_, ?_⟩
    · intro i k
      fin_cases i <;> fin_cases k <;>
        simp [epn, eA, jget, getP, setP, applySS, wr] <;>
        exact hasDerivAt_const _ _
    · intro i k
      fin_cases i <;> fin_cases k
      · simp [epn, eB, jget, getP, setP, applySS, wr]
        exact hasDerivAt_const _ _
      · simp [epn, eB, jget, getP, setP, applySS, wr]
        exact hasDerivAt_of_eq
          (hasDerivAt_affine_div 0 1 (θ.Cw * sc.sC) 0 θ.Aw
            (by simpa using mul_ne_zero hCw hsC))
          (fun v => by ring) (by field_simp; ring)
      · simp [epn, eB, jget, getP, setP, applySS, wr]
        exact hasDerivAt_const _ _
      · simp [epn, eB, jget, getP, setP, applySS, wr]
        exact hasDerivAt_const _ _
      · simp [epn, eB, jget, getP, setP, applySS, wr]
        exact hasDerivAt_const _ _
      · simp [epn, eB, jget, getP, setP, applySS, wr]
        exact hasDerivAt_const _ _
      · simp [epn, eB, jget, getP, setP, applySS, wr]
        exact hasDerivAt_const _ _
      · simp [epn, eB, jget, getP, setP, applySS, wr]
        exact hasDerivAt_const _ _
    · intro i k
      fin_cases i <;> fin_cases k <;>
        simp [epn, eQ, jget, getP, setP, applySS, wr] <;>
        exact hasDerivAt_const _ _
    · intro i k
      fin_cases i <;> fin_cases k <;>
        simp [epn, eR, jget, getP, setP, applySS, wr] <;>
        exact hasDerivAt_const _ _
    · intro i k
      fin_cases i <;> fin_cases k <;>
        simp [epn, eX, jget, getP, setP, applySS, wr] <;>
        exact hasDerivAt_const _ _
    · intro i k
      fin_cases i <;> fin_cases k <;>
        simp [epn, eP, jget, getP, setP, applySS, wr] <;>
        exact hasDerivAt_const _ _
  · -- parameter 5: Ai
    have epn : pname (5 : Fin 14) = "Ai" := rfl
    have eA : (buildJacobian sc θ).dA "Ai" = some (fun _ _ => 0) := rfl
    have eB : (buildJacobian sc θ).dB "Ai" = some (wr (fun _ _ => 0) 1 1 (1 / (θ.Ci * sc.sC))) := rfl
    have eQ : (buildJacobian sc θ).dQ "Ai" = some (fun _ _ => 0) := rfl
    have eR : (buildJacobian sc θ).dR "Ai" = some (fun _ _ => 0) := rfl
    have eX : (buildJacobian sc θ).dx0 "Ai" = some (fun _ _ => 0) := rfl
    have eP : (buildJacobian sc θ).dP0 "Ai" = some (fun _ _ => 0) := rfl
    refine ⟨?_, ?_, ?_, ?_, ?_, ?_⟩
    · intro i k
      fin_cases i <;> fin_cases k <;>
        simp [epn, eA, jget, getP, setP, applySS, wr] <;>
        exact hasDerivAt_const _ _
    · intro i k
      fin_cases i <;> fin_cases k
      · simp [epn, eB, jget, getP, setP, applySS, wr]
        exact hasDerivAt_const _ _
      · simp [epn, eB, jget, getP, setP, applySS, wr]
        exact hasDerivAt_const _ _
      · simp [epn, eB, jget, getP, setP, applySS, wr]
        exact hasDerivAt_const _ _
      · simp [epn, eB, jget, getP, setP, applySS, wr]
        exact hasDerivAt_const _ _
      · simp [epn, eB, jget, getP, setP, applySS, wr]
        exact hasDerivAt_const _ _
      · simp [epn, eB, jget, getP, setP, applySS, wr]
        exact hasDerivAt_of_eq
          (hasDerivAt_affine_div 0 1 (θ.Ci * sc.sC) 0 θ.Ai
            (by simpa using mul_ne_zero hCi hsC))
          (fun v => by ring) (by field_simp; ring)
      · simp [epn, eB, jget, getP, setP, applySS, wr]
        exact hasDerivAt_const _ _
      · simp [epn, eB, jget, getP, setP, applySS, wr]
        exact hasDerivAt_const _ _
    · intro i k
      fin_cases i <;> fin_cases k <;>
        simp [epn, eQ, jget, getP, setP, applySS, wr] <;>
        exact hasDerivAt_const _ _
    · intro i k
      fin_cases i <;> fin_cases k <;>
        simp [epn, eR, jget, getP, setP, applySS, wr] <;>
        exact hasDerivAt_const _ _
    · intro i k
      fin_cases i <;> fin_cases k <;>
        simp [epn, eX, jget, getP, setP, applySS, wr] <;>
        exact hasDerivAt_const _ _
    · intro i k
      fin_cases i <;> fin_cases k <;>
        simp [epn, eP, jget, getP, setP, applySS, wr] <;>
        exact hasDerivAt_const _ _
  · -- parameter 6: cv
    have epn : pname (6 : Fin 14) = "cv" := rfl
    have eA : (buildJacobian sc θ).dA "cv" = some (fun _ _ => 0) := rfl
    have eB : (buildJacobian sc θ).dB "cv" = some (wr (fun _ _ => 0) 1 3 (1 / (θ.Ci * sc.sC))) := rfl
    have eQ : (buildJacobian sc θ).dQ "cv" = some (fun _ _ => 0) := rfl
    have eR : (buildJacobian sc θ).dR "cv" = some (fun _ _ => 0) := rfl
    have eX : (buildJacobian sc θ).dx0 "cv" = some (fun _ _ => 0) := rfl
    have eP : (buildJacobian sc θ).dP0 "cv" = some (fun _ _ => 0) := rfl
    refine ⟨?_, ?_, ?_, ?_, ?_, ?_⟩
    · intro i k
      fin_cases i <;> fin_cases k <;>
        simp [epn, eA, jget, getP, setP, applySS, wr] <;>
        exact hasDerivAt_const _ _
    · intro i k
      fin_cases i <;> fin_cases k
      · simp [epn, eB, jget, getP, setP, applySS, wr]
        exact hasDerivAt_const _ _
      · simp [epn, eB, jget, getP, setP, applySS, wr]
        exact hasDerivAt_const _ _
      · simp [epn, eB, jget, getP, setP, applySS, wr]
        exact hasDerivAt_const _ _
      · simp [epn, eB, jget, getP, setP, applySS, wr]
        exact hasDerivAt_const _ _
      · simp [epn, eB, jget, getP, setP, applySS, wr]
        exact hasDerivAt_const _ _
      · simp [epn, eB, jget, getP, setP, applySS, wr]
        exact hasDerivAt_const _ _
      · simp [epn, eB, jget, getP, setP, applySS, wr]
        exact hasDerivAt_const _ _
      · simp [epn, eB, jget, getP, setP, applySS, wr]
        exact hasDerivAt_of_eq
          (hasDerivAt_affine_div 0 1 (θ.Ci * sc.sC) 0 θ.cv
            (by simpa using mul_ne_zero hCi hsC))
          (fun v => by ring) (by field_simp; ring)
    · intro i k
      fin_cases i <;> fin_cases k <;>
        simp [epn, eQ, jget, getP, setP, applySS, wr] <;>
        exact hasDerivAt_const _ _
    · intro i k
      fin_cases i <;> fin_cases k <;>
        simp [epn, eR, jget, getP, setP, applySS, wr] <;>
        exact hasDerivAt_const _ _
    · intro i k
      fin_cases i <;> fin_cases k <;>
        simp [epn, eX, jget, getP, setP, applySS, wr] <;>
        exact hasDerivAt_const _ _
    · intro i k
      fin_cases i <;> fin_cases k <;>
        simp [epn, eP, jget, getP, setP, applySS, wr] <;>
        exact hasDerivAt_const _ _
  · -- parameter 7: sigw_w
    have epn : pname (7 : Fin 14) = "sigw_w" := rfl
    have eA : (buildJacobian sc θ).dA "sigw_w" = some (fun _ _ => 0) := rfl
    have eB : (buildJacobian sc θ).dB "sigw_w" = some (fun _ _ => 0) := rfl
    have eQ : (buildJacobian sc θ).dQ "sigw_w" = some (wr (fun _ _ => 0) 0 0 1) := rfl
    have eR : (buildJacobian sc θ).dR "sigw_w" = some (fun _ _ => 0) := rfl
    have eX : (buildJacobian sc θ).dx0 "sigw_w" = some (fun _ _ => 0) := rfl
    have eP : (buildJacobian sc θ).dP0 "sigw_w" = some (fun _ _ => 0) := rfl
    refine ⟨?_, ?_, ?_, ?_, ?_, ?_⟩
    · intro i k
      fin_cases i <;> fin_cases k <;>
        simp [epn, eA, jget, getP, setP, applySS, wr] <;>
        exact hasDerivAt_const _ _
    · intro i k
      fin_cases i <;> fin_cases k <;>
        simp [epn, eB, jget, getP, setP, applySS, wr] <;>
        exact hasDerivAt_const _ _
    · intro i k
      fin_cases i <;> fin_cases k
      · simp [epn, eQ, jget, getP, setP, applySS, wr]
        exact hasDerivAt_of_eq
          (hasDerivAt_affine_div 0 1 1 0 θ.sigw_w
            (by norm_num))
          (fun v => by ring) (by ring)
      · simp [epn, eQ, jget, getP, setP, applySS, wr]
        exact hasDerivAt_const _ _
      · simp [epn, eQ, jget, getP, setP, applySS, wr]
        exact hasDerivAt_const _ _
      · simp [epn, eQ, jget, getP, setP, applySS, wr]
        exact hasDerivAt_const _ _
    · intro i k
      fin_cases i <;> fin_cases k <;>
        simp [epn, eR, jget, getP, setP, applySS, wr] <;>
        exact hasDerivAt_const _ _
    · intro i k
      fin_cases i <;> fin_cases k <;>
        simp [epn, eX, jget, getP, setP, applySS, wr] <;>
        exact hasDerivAt_const _ _
    · intro i k
      fin_cases i <;> fin_cases k <;>
        simp [epn, eP, jget, getP, setP, applySS, wr] <;>
        exact hasDerivAt_const _ _
  · -- parameter 8: sigw_i
    have epn : pname (8 : Fin 14) = "sigw_i" := rfl
    have eA : (buildJacobian sc θ).dA "sigw_i" = some (fun _ _ => 0) := rfl
    have eB : (buildJacobian sc θ).dB "sigw_i" = some (fun _ _ => 0) := rfl
    have eQ : (buildJacobian sc θ).dQ "sigw_i" = some (wr (fun _ _ => 0) 1 1 1) := rfl
    have eR : (buildJacobian sc θ).dR "sigw_i" = some (fun _ _ => 0) := rfl
    have eX : (buildJacobian sc θ).dx0 "sigw_i" = some (fun _ _ => 0) := rfl
    have eP : (buildJacobian sc θ).dP0 "sigw_i" = some (fun _ _ => 0) := rfl
    refine ⟨?_, ?_, ?_, ?_, ?_, ?_⟩
    · intro i k
      fin_cases i <;> fin_cases k <;>
        simp [epn, eA, jget, getP, setP, applySS, wr] <;>
        exact hasDerivAt_const _ _
    · intro i k
      fin_cases i <;> fin_cases k <;>
        simp [epn, eB, jget, getP, setP, applySS, wr] <;>
        exact hasDerivAt_const _ _
    · intro i k
      fin_cases i <;> fin_cases k
      · simp [epn, eQ, jget, getP, setP, applySS, wr]
        exact hasDerivAt_const _ _
      · simp [epn, eQ, jget, getP, setP, applySS, wr]
        exact hasDerivAt_const _ _
      · simp [epn, eQ, jget, getP, setP, applySS, wr]
        exact hasDerivAt_const _ _
      · simp [epn, eQ, jget, getP, setP, applySS, wr]
        exact hasDerivAt_of_eq
          (hasDerivAt_affine_div 0 1 1 0 θ.sigw_i
            (by norm_num))
          (fun v => by ring) (by ring)
    · intro i k
      fin_cases i <;> fin_cases k <;>
        simp [epn, eR, jget, getP, setP, applySS, wr] <;>
        exact hasDerivAt_const _ _
    · intro i k
      fin_cases i <;> fin_cases k <;>
        simp [epn, eX, jget, getP, setP, applySS, wr] <;>
        exact hasDerivAt_const _ _
    · intro i k
      fin_cases i <;> fin_cases k <;>
        simp [epn, eP, jget, getP, setP, applySS, wr] <;>
        exact hasDerivAt_const _ _
  · -- parameter 9: sigv
    have epn : pname (9 : Fin 14) = "sigv" := rfl
    have eA : (buildJacobian sc θ).dA "sigv" = some (fun _ _ => 0) := rfl
    have eB : (buildJacobian sc θ).dB "sigv" = some (fun _ _ => 0) := rfl
    have eQ : (buildJacobian sc θ).dQ "sigv" = some (fun _ _ => 0) := rfl
    have eR : (buildJacobian sc θ).dR "sigv" = some (wr (fun _ _ => 0) 0 0 1) := rfl
    have eX : (buildJacobian sc θ).dx0 "sigv" = some (fun _ _ => 0) := rfl
    have eP : (buildJacobian sc θ).dP0 "sigv" = some (fun _ _ => 0) := rfl
    refine ⟨?_, ?_, ?_, ?_, ?_, ?_⟩
    · intro i k
      fin_cases i <;> fin_cases k <;>
        simp [epn, eA, jget, getP, setP, applySS, wr] <;>
        exact hasDerivAt_const _ _
    · intro i k
      fin_cases i <;> fin_cases k <;>
        simp [epn, eB, jget, getP, setP, applySS, wr] <;>
        exact hasDerivAt_const _ _
    · intro i k
      fin_cases i <;> fin_cases k <;>
        simp [epn, eQ, jget, getP, setP, applySS, wr] <;>
        exact hasDerivAt_const _ _
    · intro i k
      fin_cases i <;> fin_cases k
      · simp [epn, eR, jget, getP, setP, applySS, wr]
        exact hasDerivAt_of_eq
          (hasDerivAt_affine_div 0 1 1 0 θ.sigv
            (by norm_num))
          (fun v => by ring) (by ring)
    · intro i k
      fin_cases i <;> fin_cases k <;>
        simp [epn, eX, jget, getP, setP, applySS, wr] <;>
        exact hasDerivAt_const _ _
    · intro i k
      fin_cases i <;> fin_cases k <;>
        simp [epn, eP, jget, getP, setP, applySS, wr] <;>
        exact hasDerivAt_const _ _
  · -- parameter 10: x0_w
    have epn : pname (10 : Fin 14) = "x0_w" := rfl
    have eA : (buildJacobian sc θ).dA "x0_w" = some (fun _ _ => 0) := rfl
    have eB : (buildJacobian sc θ).dB "x0_w" = some (fun _ _ => 0) := rfl
    have eQ : (buildJacobian sc θ).dQ "x0_w" = some (fun _ _ => 0) := rfl
    have eR : (buildJacobian sc θ).dR "x0_w" = some (fun _ _ => 0) := rfl
    have eX : (buildJacobian sc θ).dx0 "x0_w" = some (wr (fun _ _ => 0) 0 0 sc.sX) := rfl
    have eP : (buildJacobian sc θ).dP0 "x0_w" = some (fun _ _ => 0) := rfl
    refine ⟨?_, ?_, ?_, ?_, ?_, ?_⟩
    · intro i k
      fin_cases i <;> fin_cases k <;>
        simp [epn, eA, jget, getP, setP, applySS, wr] <;>
        exact hasDerivAt_const _ _
    · intro i k
      fin_cases i <;> fin_cases k <;>
        simp [epn, eB, jget, getP, setP, applySS, wr] <;>
        exact hasDerivAt_const _ _
    · intro i k
      fin_cases i <;> fin_cases k <;>
        simp [epn, eQ, jget, getP, setP, applySS, wr] <;>
        exact hasDerivAt_const _ _
    · intro i k
      fin_cases i <;> fin_cases k <;>
        simp [epn, eR, jget, getP, setP, applySS, wr] <;>
        exact hasDerivAt_const _ _
    · intro i k
      fin_cases i <;> fin_cases k
      · simp [epn, eX, jget, getP, setP, applySS, wr]
        exact hasDerivAt_of_eq
          (hasDerivAt_affine_div 0 sc.sX 1 0 θ.x0_w
            (by norm_num))
          (fun v => by ring) (by ring)
      · simp [epn, eX, jget, getP, setP, applySS, wr]
        exact hasDerivAt_const _ _
    · intro i k
      fin_cases i <;> fin_cases k <;>
        simp [epn, eP, jget, getP, setP, applySS, wr] <;>
        exact hasDerivAt_const _ _
  · -- parameter 11: x0_i
    have epn : pname (11 : Fin 14) = "x0_i" := rfl
    have eA : (buildJacobian sc θ).dA "x0_i" = some (fun _ _ => 0) := rfl
    have eB : (buildJacobian sc θ).dB "x0_i" = some (fun _ _ => 0) := rfl
    have eQ : (buildJacobian sc θ).dQ "x0_i" = some (fun _ _ => 0) := rfl
    have eR : (buildJacobian sc θ).dR "x0_i" = some (fun _ _ => 0) := rfl
    have eX : (buildJacobian sc θ).dx0 "x0_i" = some (wr (fun _ _ => 0) 1 0 sc.sX) := rfl
    have eP : (buildJacobian sc θ).dP0 "x0_i" = some (fun _ _ => 0) := rfl
    refine ⟨?_, ?_, ?_, ?_, ?_, ?_⟩
    · intro i k
      fin_cases i <;> fin_cases k <;>
        simp [epn, eA, jget, getP, setP, applySS, wr] <;>
        exact hasDerivAt_const _ _
    · intro i k
      fin_cases i <;> fin_cases k <;>
        simp [epn, eB, jget, getP, setP, applySS, wr] <;>
        exact hasDerivAt_const _ _
    · intro i k
      fin_cases i <;> fin_cases k <;>
        simp [epn, eQ, jget, getP, setP, applySS, wr] <;>
        exact hasDerivAt_const _ _
    · intro i k
      fin_cases i <;> fin_cases k <;>
        simp [epn, eR, jget, getP, setP, applySS, wr] <;>
        exact hasDerivAt_const _ _
    · intro i k
      fin_cases i <;> fin_cases k
      · simp [epn, eX, jget, getP, setP, applySS, wr]
        exact hasDerivAt_const _ _
      · simp [epn, eX, jget, getP, setP, applySS, wr]
        exact hasDerivAt_of_eq
          (hasDerivAt_affine_div 0 sc.sX 1 0 θ.x0_i
            (by norm_num))
          (fun v => by ring) (by ring)
    · intro i k
      fin_cases i <;> fin_cases k <;>
        simp [epn, eP, jget, getP, setP, applySS, wr] <;>
        exact hasDerivAt_const _ _
  · -- parameter 12: sigx0_w
    have epn : pname (12 : Fin 14) = "sigx0_w" := rfl
    have eA : (buildJacobian sc θ).dA "sigx0_w" = some (fun _ _ => 0) := rfl
    have eB : (buildJacobian sc θ).dB "sigx0_w" = some (fun _ _ => 0) := rfl
    have eQ : (buildJacobian sc θ).dQ "sigx0_w" = some (fun _ _ => 0) := rfl
    have eR : (buildJacobian sc θ).dR "sigx0_w" = some (fun _ _ => 0) := rfl
    have eX : (buildJacobian sc θ).dx0 "sigx0_w" = some (fun _ _ => 0) := rfl
    have eP : (buildJacobian sc θ).dP0 "sigx0_w" = some (wr (fun _ _ => 0) 0 0 1) := rfl
    refine ⟨?_, ?_, ?_, ?_, ?_, ?_⟩
    · intro i k
      fin_cases i <;> fin_cases k <;>
        simp [epn, eA, jget, getP, setP, applySS, wr] <;>
        exact hasDerivAt_const _ _
    · intro i k
      fin_cases i <;> fin_cases k <;>
        simp [epn, eB, jget, getP, setP, applySS, wr] <;>
        exact hasDerivAt_const _ _
    · intro i k
      fin_cases i <;> fin_cases k <;>
        simp [epn, eQ, jget, getP, setP, applySS, wr] <;>
        exact hasDerivAt_const _ _
    · intro i k
      fin_cases i <;> fin_cases k <;>
        simp [epn, eR, jget, getP, setP, applySS, wr] <;>
        exact hasDerivAt_const _ _
    · intro i k
      fin_cases i <;> fin_cases k <;>
        simp [epn, eX, jget, getP, setP, applySS, wr] <;>
        exact hasDerivAt_const _ _
    · intro i k
      fin_cases i <;> fin_cases k
      · simp [epn, eP, jget, getP, setP, applySS, wr]
        exact hasDerivAt_of_eq
          (hasDerivAt_affine_div 0 1 1 0 θ.sigx0_w
            (by norm_num))
          (fun v => by ring) (by ring)
      · simp [epn, eP, jget, getP, setP, applySS, wr]
        exact hasDerivAt_const _ _
      · simp [epn, eP, jget, getP, setP, applySS, wr]
        exact hasDerivAt_const _ _
      · simp [epn, eP, jget, getP, setP, applySS, wr]
        exact hasDerivAt_const _ _
  · -- parameter 13: sigx0_i
    have epn : pname (13 : Fin 14) = "sigx0_i" := rfl
    have eA : (buildJacobian sc θ).dA "sigx0_i" = some (fun _ _ => 0) := rfl
    have eB : (buildJacobian sc θ).dB "sigx0_i" = some (fun _ _ => 0) := rfl
    have eQ : (buildJacobian sc θ).dQ "sigx0_i" = some (fun _ _ => 0) := rfl
    have eR : (buildJacobian sc θ).dR "sigx0_i" = some (fun _ _ => 0) := rfl
    have eX : (buildJacobian sc θ).dx0 "sigx0_i" = some (fun _ _ => 0) := rfl
    have eP : (buildJacobian sc θ).dP0 "sigx0_i" = some (wr (fun _ _ => 0) 1 1 1) := rfl
    refine ⟨?_, ?_, ?_, ?_, ?_, ?_⟩
    · intro i k
      fin_cases i <;> fin_cases k <;>
        simp [epn, eA, jget, getP, setP, applySS, wr] <;>
        exact hasDerivAt_const _ _
    · intro i k
      fin_cases i <;> fin_cases k <;>
        simp [epn, eB, jget, getP, setP, applySS, wr] <;>
        exact hasDerivAt_const _ _
    · intro i k
      fin_cases i <;> fin_cases k <;>
        simp [epn, eQ, jget, getP, setP, applySS, wr] <;>
        exact hasDerivAt_const _ _
    · intro i k
      fin_cases i <;> fin_cases k <;>
        simp [epn, eR, jget, getP, setP, applySS, wr] <;>
        exact hasDerivAt_const _ _
    · intro i k
      fin_cases i <;> fin_cases k <;>
        simp [epn, eX, jget, getP, setP, applySS, wr] <;>
        exact hasDerivAt_const _ _
    · intro i k
      fin_cases i <;> fin_cases k
      · simp [epn, eP, jget, getP, setP, applySS, wr]
        exact hasDerivAt_const _ _
      · simp [epn, eP, jget, getP, setP, applySS, wr]
        exact hasDerivAt_const _ _
      · simp [epn, eP, jget, getP, setP, applySS, wr]
        exact hasDerivAt_const _ _
      · simp [epn, eP, jget, getP, setP, applySS, wr]
        exact hasDerivAt_of_eq
          (hasDerivAt_affine_div 0 1 1 0 θ.sigx0_i
            (by norm_num))
          (fun v => by ring) (by ring)

/-- Witness for C1 at the concrete all-ones parameter point, for the
`Ro`-derivative of `A[0,0]`. -/
theorem twti_jacobian_exact_derivatives_witness :
    (thetaW.Ro ≠ 0 ∧ thetaW.Ri ≠ 0 ∧ thetaW.Cw ≠ 0 ∧ thetaW.Ci ≠ 0 ∧ scW.sC ≠ 0) ∧
    HasDerivAt (fun v => (applySS scW (setP thetaW 0 v) zeroSS).A 0 0)
      (jget ((buildJacobian scW thetaW).dA (pname 0)) 0 0) (getP thetaW 0) :=
  ⟨⟨one_ne_zero, one_ne_zero, one_ne_zero, one_ne_zero, one_ne_zero⟩,
   (twti_jacobian_exact_derivatives scW thetaW zeroSS one_ne_zero one_ne_zero
      one_ne_zero one_ne_zero one_ne_zero 0).1 0 0⟩

/-- C2 counterexample: the optimizer invocation in `FreqRegressor.fit` does
not supply an analytic gradient callback (nor a value-and-gradient
objective); its `jac` argument is a finite-difference scheme name. -/
theorem fit_jac_not_analytic_counterexample :
    fit_minimize_call.jac ≠ ScipyJac.callback ∧
    fit_minimize_call.jac ≠ ScipyJac.boolTrue ∧
    fit_minimize_call.jac.usesFiniteDifference = true := by
  refine ⟨?_, ?_, rfl⟩ <;> simp [fit_minimize_call]

/-- C2 (amended): `fit` calls the optimizer with `method="BFGS"` and
`jac="3-point"`, so the gradient the optimizer uses is a 3-point
finite-difference approximation of the objective, not the filter's
analytic gradient. -/
theorem fit_requests_three_point_finite_difference :
    fit_minimize_call.method = "BFGS" ∧
    fit_minimize_call.jac = ScipyJac.fdScheme "3-point" ∧
    fit_minimize_call.jac.usesFiniteDifference = true :=
  ⟨rfl, rfl, rfl⟩

/-- C3: after construction every declared parameter has an entry in all
eight derivative maps (so every lookup by parameter succeeds), the entry
is the zero matrix whenever the parent matrix does not read that
parameter, and each parent matrix indeed depends only on its listed
parameters. -/
theorem derivative_maps_complete_and_zero (sc : Scales ℝ) (θ : Theta ℝ)
    (p : String) (hp : p ∈ paramNames) :
    (((buildJacobian sc θ).dA p).isSome = true ∧
     ((buildJacobian sc θ).dB p).isSome = true ∧
     ((buildJacobian sc θ).dC p).isSome = true ∧
     ((buildJacobian sc θ).dD p).isSome = true ∧
     ((buildJacobian sc θ).dQ p).isSome = true ∧
     ((buildJacobian sc θ).dR p).isSome = true ∧
     ((buildJacobian sc θ).dx0 p).isSome = true ∧
     ((buildJacobian sc θ).dP0 p).isSome = true) ∧
    (p ∉ depA → (buildJacobian sc θ).dA p = some (fun _ _ => 0)) ∧
    (p ∉ depB → (buildJacobian sc θ).dB p = some (fun _ _ => 0)) ∧
    ((buildJacobian sc θ).dC p = some (fun _ _ => 0)) ∧
    ((buildJacobian sc θ).dD p = some (fun _ _ => 0)) ∧
    (p ∉ depQ → (buildJacobian sc θ).dQ p = some (fun _ _ => 0)) ∧
    (p ∉ depR → (buildJacobian sc θ).dR p = some (fun _ _ => 0)) ∧
    (p ∉ depx0 → (buildJacobian sc θ).dx0 p = some (fun _ _ => 0)) ∧
    (p ∉ depP0 → (buildJacobian sc θ).dP0 p = some (fun _ _ => 0)) ∧
    (∀ θ₁ θ₂ : Theta ℝ, ∀ s : SS ℝ, θ₁.Ro = θ₂.Ro → θ₁.Ri = θ₂.Ri →
      θ₁.Cw = θ₂.Cw → θ₁.Ci = θ₂.Ci →
      (applySS sc θ₁ s).A = (applySS sc θ₂ s).A) ∧
    (∀ θ₁ θ₂ : Theta ℝ, ∀ s : SS ℝ, θ₁.Ro = θ₂.Ro → θ₁.Cw = θ₂.Cw →
      θ₁.Ci = θ₂.Ci → θ₁.Aw = θ₂.Aw → θ₁.Ai = θ₂.Ai → θ₁.cv = θ₂.cv →
      (applySS sc θ₁ s).B = (applySS sc θ₂ s).B) ∧
    (∀ θ₁ θ₂ : Theta ℝ, ∀ s : SS ℝ,
      (applySS sc θ₁ s).C = (applySS sc θ₂ s).C ∧
      (applySS sc θ₁ s).D = (applySS sc θ₂ s).D) ∧
    (∀ θ₁ θ₂ : Theta ℝ, ∀ s : SS ℝ, θ₁.sigw_w = θ₂.sigw_w →
      θ₁.sigw_i = θ₂.sigw_i → (applySS sc θ₁ s).Q = (applySS sc θ₂ s).Q) ∧
    (∀ θ₁ θ₂ : Theta ℝ, ∀ s : SS ℝ, θ₁.sigv = θ₂.sigv →
      (applySS sc θ₁ s).R = (applySS sc θ₂ s).R) ∧
    (∀ θ₁ θ₂ : Theta ℝ, ∀ s : SS ℝ, θ₁.x0_w = θ₂.x0_w → θ₁.x0_i = θ₂.x0_i →
      (applySS sc θ₁ s).x0 = (applySS sc θ₂ s).x0) ∧
    (∀ θ₁ θ₂ : Theta ℝ, ∀ s : SS ℝ, θ₁.sigx0_w = θ₂.sigx0_w →
      θ₁.sigx0_i = θ₂.sigx0_i → (applySS sc θ₁ s).P0 = (applySS sc θ₂ s).P0) :=
  ⟨buildJacobian_isSome sc θ p hp,
   bj_dA_zero sc θ p hp, bj_dB_zero sc θ p hp, bj_dC_zero sc θ p hp,
   bj_dD_zero sc θ p hp, bj_dQ_zero sc θ p hp, bj_dR_zero sc θ p hp,
   bj_dx0_zero sc θ p hp, bj_dP0_zero sc θ p hp,
   applySS_A_dep sc, applySS_B_dep sc, fun _ _ _ => ⟨rfl, rfl⟩,
   applySS_Q_dep sc, applySS_R_dep sc, applySS_x0_dep sc, applySS_P0_dep sc⟩

/-- Witness for C3 at the concrete parameter `sigv`. -/
theorem derivative_maps_complete_and_zero_witness :
    "sigv" ∈ paramNames ∧
    (buildJacobian scW thetaW).dA "sigv" = some (fun _ _ => 0) :=
  ⟨by decide,
   (derivative_maps_complete_and_zero scW thetaW "sigv" (by decide)).2.1 (by decide)⟩

/-- C4: `update_state_space_model` and `update_jacobian` read `theta`
positionally; two vectors agreeing on their first 14 entries produce
identical matrices and derivative maps, entries beyond 14 being ignored. -/
theorem theta_read_positionally_first14 (sc : Scales ℝ) (s : SS ℝ) (j : Jac ℝ)
    (l₁ l₂ : List ℝ) (h : l₁.take 14 = l₂.take 14) :
    update_state_space_model sc l₁ s = update_state_space_model sc l₂ s ∧
    update_jacobian sc l₁ j = update_jacobian sc l₂ j := by
  have hmin : min 14 l₁.length = min 14 l₂.length := by
    have hlen := congrArg List.length h
    simpa [List.length_take] using hlen
  have h14 : 14 ≤ l₁.length ↔ 14 ≤ l₂.length := by omega
  have h7 : 7 ≤ l₁.length ↔ 7 ≤ l₂.length := by omega
  have hθ : Theta.ofList l₁ = Theta.ofList l₂ := by
    unfold Theta.ofList
    congr 1 <;> exact getD_eq_of_take_eq l₁ l₂ 0 14 _ h (by norm_num)
  constructor
  · unfold update_state_space_model
    by_cases hc : 14 ≤ l₁.length
    · rw [if_pos hc, if_pos (h14.mp hc), hθ]
    · rw [if_neg hc, if_neg (fun hc2 => hc (h14.mpr hc2))]
  · unfold update_jacobian
    by_cases hc : 7 ≤ l₁.length
    · rw [if_pos hc, if_pos (h7.mp hc), hθ]
    · rw [if_neg hc, if_neg (fun hc2 => hc (h7.mpr hc2))]

/-- Witness for C4: a 15-entry and a 16-entry vector agreeing on their
first 14 entries give identical outputs. -/
theorem theta_read_positionally_first14_witness :
    l14a.take 14 = l14b.take 14 ∧
    (update_state_space_model scW l14a zeroSS =
       update_state_space_model scW l14b zeroSS ∧
     update_jacobian scW l14a initJac = update_jacobian scW l14b initJac) :=
  ⟨rfl, theta_read_positionally_first14 scW zeroSS initJac l14a l14b rfl⟩

/-- C5: `C[0,1] = 1` is written by the one-time `set_constant`; any number
of `update_state_space_model` evaluations afterwards leaves `C` and `D`
exactly as `set_constant` left them. -/
theorem C_D_frame_invariant (sc : Scales ℝ) (s : SS ℝ) (ls : List (List ℝ)) :
    (ls.foldl (fun t l => (update_state_space_model sc l t).getD t)
        (set_constant s)).C = (set_constant s).C ∧
    (ls.foldl (fun t l => (update_state_space_model sc l t).getD t)
        (set_constant s)).D = (set_constant s).D ∧
    (set_constant s).C 0 1 = 1 :=
  ⟨foldl_update_C sc ls (set_constant s), foldl_update_D sc ls (set_constant s),
   by simp [set_constant, wr]⟩

/-- C6: a successful `update_state_space_model` preserves symmetry of `Q`
and `P0` (it writes only their diagonals) and leaves `R` symmetric; the
shapes (`A` 2×2, `B` 2×4, `C` 1×2) are fixed by the `SS` index types. -/
theorem update_preserves_shape_symmetry (sc : Scales ℝ) (l : List ℝ)
    (s s' : SS ℝ) (h : update_state_space_model sc l s = some s')
    (hQ : ∀ i j, s.Q i j = s.Q j i) (hP : ∀ i j, s.P0 i j = s.P0 j i) :
    (∀ i j, s'.Q i j = s'.Q j i) ∧ (∀ i j, s'.R i j = s'.R j i) ∧
    (∀ i j, s'.P0 i j = s'.P0 j i) := by
  unfold update_state_space_model at h
  by_cases hc : 14 ≤ l.length
  · rw [if_pos hc] at h
    have hs : s' = applySS sc (Theta.ofList l) s := by
      injection h with h2
      exact h2.symm
    subst hs
    refine ⟨?_, ?_, ?_⟩
    · intro i j
      fin_cases i <;> fin_cases j <;> simp [applySS, wr] <;>
        first | exact hQ _ _ | rfl
    · intro i j
      fin_cases i <;> fin_cases j <;> rfl
    · intro i j
      fin_cases i <;> fin_cases j <;> simp [applySS, wr] <;>
        first | exact hP _ _ | rfl
  · rw [if_neg hc] at h
    exact absurd h (by simp)

/-- Witness for C6 at the all-ones parameter vector from the zero state. -/
theorem update_preserves_shape_symmetry_witness :
    update_state_space_model scW (List.replicate 14 (1 : ℝ)) zeroSS =
      some (applySS scW (Theta.ofList (List.replicate 14 (1 : ℝ))) zeroSS) ∧
    ((∀ i j, (applySS scW (Theta.ofList (List.replicate 14 (1 : ℝ))) zeroSS).Q i j =
        (applySS scW (Theta.ofList (List.replicate 14 (1 : ℝ))) zeroSS).Q j i) ∧
     (∀ i j, (applySS scW (Theta.ofList (List.replicate 14 (1 : ℝ))) zeroSS).R i j =
        (applySS scW (Theta.ofList (List.replicate 14 (1 : ℝ))) zeroSS).R j i) ∧
     (∀ i j, (applySS scW (Theta.ofList (List.replicate 14 (1 : ℝ))) zeroSS).P0 i j =
        (applySS scW (Theta.ofList (List.replicate 14 (1 : ℝ))) zeroSS).P0 j i)) :=
  have h : update_state_space_model scW (List.replicate 14 (1 : ℝ)) zeroSS =
      some (applySS scW (Theta.ofList (List.replicate 14 (1 : ℝ))) zeroSS) := by
    simp [update_state_space_model]
  ⟨h, update_preserves_shape_symmetry scW (List.replicate 14 (1 : ℝ)) zeroSS _ h
    (fun _ _ => rfl) (fun _ _ => rfl)⟩

/-- C7: `predict` raises `NotImplementedError` exactly when the model
declares more than one output, before consulting the downstream
data-preparation/estimation computation at all; a single-output model can
never fail on that ground. -/
theorem predict_single_output_guard {ε : Type} (sqrt : ℝ → ℝ) (ny : ℕ)
    (C : Fin 1 → Fin 2 → ℝ) (R : Fin 1 → Fin 1 → ℝ)
    (estimates : Except ε (List (StateEstimate ℝ))) :
    (1 < ny →
      predict sqrt ny C R estimates = Except.error PredictError.notImplemented) ∧
    (ny ≤ 1 →
      predict sqrt ny C R estimates ≠ Except.error PredictError.notImplemented) := by
  constructor
  · intro h
    simp [predict, h]
  · intro h
    have h1 : ¬ 1 < ny := by omega
    cases estimates with
    | error e => simp [predict, h1]
    | ok xs => simp [predict, h1]

/-- Witness for C7 at `ny = 2` and `ny = 1`. -/
theorem predict_single_output_guard_witness :
    (1 < 2 ∧ predict (id : ℝ → ℝ) 2 Cdemo Rdemo
        (Except.ok ([] : List (StateEstimate ℝ)) :
          Except Unit (List (StateEstimate ℝ)))
      = Except.error PredictError.notImplemented) ∧
    (1 ≤ 1 ∧ predict (id : ℝ → ℝ) 1 Cdemo Rdemo
        (Except.ok ([] : List (StateEstimate ℝ)) :
          Except Unit (List (StateEstimate ℝ)))
      ≠ Except.error PredictError.notImplemented) :=
  ⟨⟨by norm_num, (predict_single_output_guard id 2 Cdemo Rdemo _).1 (by norm_num)⟩,
   ⟨le_refl 1, (predict_single_output_guard id 1 Cdemo Rdemo _).2 (le_refl 1)⟩⟩

/-- C8 (spec-modelled filter): the forward pass fails with
`numericalInstability` exactly when some variance is non-positive, and a
successful pass returns exactly the factorization of every variance —
no NaN or default value is ever substituted. -/
theorem filter_pass_instability_iff (factor : ℚ → ℚ) (vs : List ℚ) :
    (filter_pass factor vs = Except.error FilterError.numericalInstability ↔
      ∃ v ∈ vs, v ≤ 0) ∧
    (∀ rs, filter_pass factor vs = Except.ok rs →
      rs = vs.map factor ∧ ∀ v ∈ vs, 0 < v) := by
  induction vs with
  | nil =>
      constructor
      · constructor
        · intro h
          exact absurd h (by simp [filter_pass])
        · rintro ⟨v, hv, _⟩
          exact absurd hv (List.not_mem_nil v)
      · intro rs h
        have h2 : ([] : List ℚ) = rs := by
          simpa [filter_pass] using h
        subst h2
        simp
  | cons v vs ih =>
      by_cases hv : v ≤ 0
      · refine ⟨⟨fun _ => ⟨v, List.mem_cons_self v vs, hv⟩,
          fun _ => filter_pass_cons_neg factor v vs hv⟩, ?_⟩
        intro rs h
        rw [filter_pass_cons_neg factor v vs hv] at h
        exact absurd h (by simp)
      · have hcons := filter_pass_cons_pos factor v vs hv
        cases hfp : filter_pass factor vs with
        | error e =>
            cases e
            rw [hfp] at hcons
            refine ⟨⟨fun _ => ?_, fun _ => hcons⟩, ?_⟩
            · obtain ⟨w, hw, hw0⟩ := ih.1.mp hfp
              exact ⟨w, List.mem_cons_of_mem v hw, hw0⟩
            · intro rs h
              rw [hcons] at h
              exact absurd h (by simp)
        | ok rs2 =>
            rw [hfp] at hcons
            obtain ⟨h1, h2⟩ := ih.2 rs2 hfp
            constructor
            · constructor
              · intro h
                rw [hcons] at h
                exact absurd h (by simp)
              · rintro ⟨w, hw, hw0⟩
                rcases List.mem_cons.mp hw with rfl | hw2
                · exact absurd hw0 hv
                · have herr := ih.1.mpr ⟨w, hw2, hw0⟩
                  rw [hfp] at herr
                  exact absurd herr (by simp)
            · intro rs h
              rw [hcons] at h
              have h3 : factor v :: rs2 = rs := by
                injection h
              constructor
              · rw [← h3, h1]
                simp
              · intro w hw
                rcases List.mem_cons.mp hw with rfl | hw2
                · exact not_le.mp hv
                · exact h2 w hw2

/-- Witness for C8: a pass over positive variances succeeds with the
factors, and a pass containing a non-positive variance fails. -/
theorem filter_pass_instability_iff_witness :
    (([(1 : ℚ), 4].map id = [(1 : ℚ), 4].map id ∧ ∀ v ∈ [(1 : ℚ), 4], 0 < v) ∧
     filter_pass id [(1 : ℚ), -1] = Except.error FilterError.numericalInstability) :=
  ⟨(filter_pass_instability_iff id [1, 4]).2 ([(1 : ℚ), 4].map id)
      (show filter_pass id [(1 : ℚ), 4] = Except.ok ([(1 : ℚ), 4].map id) by
        norm_num [filter_pass, triangularize]),
   (filter_pass_instability_iff id [1, -1]).1.mpr ⟨-1, by decide, by decide⟩⟩

/-- C9: whenever `predict` succeeds, the returned standard deviation is
`sqrt(C P Cᵀ) + R` — the measurement noise is added after the square
root, which differs from the conventional `sqrt(C P Cᵀ + R)`. -/
theorem predict_std_adds_R_after_sqrt {ε : Type} (ny : ℕ)
    (C : Fin 1 → Fin 2 → ℝ) (R : Fin 1 → Fin 1 → ℝ)
    (xs : List (StateEstimate ℝ)) (h : ¬ 1 < ny) :
    predict Real.sqrt ny C R
        (Except.ok xs : Except ε (List (StateEstimate ℝ))) =
      Except.ok
        (xs.map fun st => output_mean C st.x,
         xs.map fun st => Real.sqrt (output_quad C st.P) + R 0 0) ∧
    Real.sqrt (output_quad Cdemo Pdemo + Rdemo 0 0) ≠
      Real.sqrt (output_quad Cdemo Pdemo) + Rdemo 0 0 := by
  constructor
  · simp [predict, h]
  · have hq : output_quad Cdemo Pdemo = 1 := by
      simp [output_quad, Cdemo, Pdemo, Fin.sum_univ_two]
    have hr : Rdemo 0 0 = (1 : ℝ) := rfl
    rw [hq, hr, Real.sqrt_one]
    intro heq
    have h2 := Real.sq_sqrt (show (0 : ℝ) ≤ 1 + 1 by norm_num)
    rw [heq] at h2
    norm_num at h2

/-- Witness for C9 at `ny = 1` with an empty estimate list. -/
theorem predict_std_adds_R_after_sqrt_witness :
    ¬ 1 < 1 ∧
    (predict Real.sqrt 1 Cdemo Rdemo
        (Except.ok ([] : List (StateEstimate ℝ)) :
          Except Unit (List (StateEstimate ℝ))) = Except.ok ([], []) ∧
     Real.sqrt (output_quad Cdemo Pdemo + Rdemo 0 0) ≠
       Real.sqrt (output_quad Cdemo Pdemo) + Rdemo 0 0) :=
  ⟨by norm_num, predict_std_adds_R_after_sqrt 1 Cdemo Rdemo [] (by norm_num)⟩

/-- C10: `eval_residuals` never reads its `x0` and `P0` arguments — two
calls differing only there return identical residual pairs. -/
theorem eval_residuals_independent_of_x0_P0
    {Df Dt U Y Ssm Idx Res X0v P0v : Type}
    (prepare : Df → Dt × U × U × Y) (get_discrete_ssm : Dt → Ssm × Idx)
    (filtering : Ssm → Idx → U → U → Y → Res × Res) (df : Df)
    (x0 x0' : Option X0v) (P0 P0' : Option P0v) :
    eval_residuals prepare get_discrete_ssm filtering df x0 P0 =
    eval_residuals prepare get_discrete_ssm filtering df x0' P0' := rfl

end PySIP

